import Mathlib

/-
Verification of the versioned-resource reconciliation engine
(pkg/cloud/api/resource.go) and of the resource-graph diagram renderer
(pkg/cloud/resgraph/algo/graphviz/graphviz.go).

The resource file is generic over the three representation types
GA/Alpha/Beta and drives four collaborators whose implementations live in
files that are not part of this source snapshot: the structural copier
(newCopier / copier.do), the per-type trait hooks (TypeTrait.CopyHelper*,
TypeTrait.FieldTraits), the post-access validator (checkPostAccess) and
the absence-metadata filler (fillNullAndForceSend).  Those collaborators
are abstracted here as parameters (the `Env` structure below); everything
that resource.go itself does — ordering of validation, copy, hook and
error-table writes, the To* aggregation, the ImpliedVersion decision
table, Set's copier-mediated replacement, Freeze's conditional fills —
is translated directly from the source.
-/

namespace CloudApi

/-- Dynamic value carried by a dropped field (Go `any`), shallowly
modelled as a small closed universe of renderable values. -/
inductive FieldVal where
  | str (s : String)
  | intVal (n : Int)
  | boolVal (b : Bool)
deriving DecidableEq

/-- Modelled from the spec: a Path segment — a field name or a sequence
index (§3 Path); the Path implementation file is not in this snapshot. -/
inductive PathSeg where
  | field (name : String)
  | index (i : Nat)
deriving DecidableEq

/-- Modelled from the spec: Path is an ordered sequence of navigation
segments with structural equality (§3). -/
abbrev Path := List PathSeg

/-- ConversionContext gives which version => version the error occurred
on (resource.go lines 27-38).  Exactly six directed contexts exist. -/
inductive ConversionContext where
  | GAToAlphaConversion
  | GAToBetaConversion
  | AlphaToGAConversion
  | AlphaToBetaConversion
  | BetaToGAConversion
  | BetaToAlphaConversion
deriving DecidableEq

/-- Modelled from the spec: the per-copy missing-field record produced by
the structural copier (its file is not in this snapshot); resource.go
reads exactly the fields `Path` and `Value` of these records. -/
structure MissingFieldOnCopy where
  Path : List PathSeg
  Value : FieldVal
deriving DecidableEq

/-- MissingField describes a field lost when converting between API
versions (resource.go lines 57-66). -/
structure MissingField where
  Context : ConversionContext
  Path : List PathSeg
  Value : FieldVal
deriving DecidableEq

/-- ConversionError is returned from the To*() methods (resource.go
lines 40-46). -/
structure ConversionError where
  MissingFields : List MissingField
deriving DecidableEq

/-- Translation of ConversionError.hasErr (resource.go lines 48-50). -/
def ConversionError.hasErr (e : ConversionError) : Bool :=
  decide (e.MissingFields.length > 0)

/-- Version of an API resource (meta.VersionGA / VersionAlpha /
VersionBeta). -/
inductive Version where
  | GA
  | Alpha
  | Beta
deriving DecidableEq

/-- Six-slot error table, one `conversionErrors.missingFields` list per
ConversionContext (resource.go line 167: `errors
[conversionContextCount]conversionErrors`). -/
structure ErrorTable where
  gaToAlpha : List MissingFieldOnCopy
  gaToBeta : List MissingFieldOnCopy
  alphaToGA : List MissingFieldOnCopy
  alphaToBeta : List MissingFieldOnCopy
  betaToGA : List MissingFieldOnCopy
  betaToAlpha : List MissingFieldOnCopy
deriving DecidableEq

/-- Empty error table (zero value of the Go array). -/
def ErrorTable.empty : ErrorTable := ⟨[], [], [], [], [], []⟩

/-- Array indexing `u.errors[cc]` of the Go error table. -/
def ErrorTable.get (t : ErrorTable) : ConversionContext → List MissingFieldOnCopy
  | .GAToAlphaConversion => t.gaToAlpha
  | .GAToBetaConversion => t.gaToBeta
  | .AlphaToGAConversion => t.alphaToGA
  | .AlphaToBetaConversion => t.alphaToBeta
  | .BetaToGAConversion => t.betaToGA
  | .BetaToAlphaConversion => t.betaToAlpha

/-- State of a `resource[GA, Alpha, Beta]` (resource.go lines 158-168):
the three representation values and the error table.  The resourceID,
copier options and type trait are carried by `Env` below. -/
structure resource (GA Alpha Beta : Type) where
  ga : GA
  alpha : Alpha
  beta : Beta
  errors : ErrorTable
deriving DecidableEq

/-- Modelled from the spec: the collaborators of resource.go whose
implementations are in files outside this snapshot, abstracted as
parameters.  `copyXtoY d s` is the structural copier invocation
`c.do(&d, &s)` (§4.2): it returns the updated destination together with
the missing-field list `c.missing`, or an error.  `CopyHelperXtoY d s` is
the custom bridging hook `typeTrait.CopyHelperXtoY(&d, &s)` (§4.1.1 step
3), returning the transformed destination or an error.
`checkPostAccessX ft x` is `checkPostAccess(FieldTraits(X), x)` (§4.3).
`fillNullAndForceSendX ft x` is the fill-absence-metadata step of §4.1.3,
which per the spec walks the field traits and populates bookkeeping
fields (the spec gives it no failure mode, so it is total here). -/
structure Env (FT GA Alpha Beta : Type) where
  FieldTraits : Version → FT
  checkPostAccessGA : FT → GA → Option String
  checkPostAccessAlpha : FT → Alpha → Option String
  checkPostAccessBeta : FT → Beta → Option String
  copyGAtoGA : GA → GA → Except String (GA × List MissingFieldOnCopy)
  copyAlphaToAlpha : Alpha → Alpha → Except String (Alpha × List MissingFieldOnCopy)
  copyBetaToBeta : Beta → Beta → Except String (Beta × List MissingFieldOnCopy)
  copyGAtoAlpha : Alpha → GA → Except String (Alpha × List MissingFieldOnCopy)
  copyGAtoBeta : Beta → GA → Except String (Beta × List MissingFieldOnCopy)
  copyAlphaToGA : GA → Alpha → Except String (GA × List MissingFieldOnCopy)
  copyAlphaToBeta : Beta → Alpha → Except String (Beta × List MissingFieldOnCopy)
  copyBetaToGA : GA → Beta → Except String (GA × List MissingFieldOnCopy)
  copyBetaToAlpha : Alpha → Beta → Except String (Alpha × List MissingFieldOnCopy)
  CopyHelperGAtoAlpha : Alpha → GA → Except String Alpha
  CopyHelperGAtoBeta : Beta → GA → Except String Beta
  CopyHelperAlphaToGA : GA → Alpha → Except String GA
  CopyHelperAlphaToBeta : Beta → Alpha → Except String Beta
  CopyHelperBetaToGA : GA → Beta → Except String GA
  CopyHelperBetaToAlpha : Alpha → Beta → Except String Alpha
  fillNullAndForceSendGA : FT → GA → GA
  fillNullAndForceSendAlpha : FT → Alpha → Alpha
  fillNullAndForceSendBeta : FT → Beta → Beta

variable {FT GA Alpha Beta : Type}

/-- Flag bit `postAccessSkipValidation` (resource.go lines 188-190). -/
def postAccessSkipValidation : Nat := 1

/-- Conversion loop of postAccess for srcVer = GA (resource.go lines
246-255, with the conversions list of lines 204-214): for each of the
two destinations in order (alpha then beta) run the copier, then the
custom hook, then store the copier's missing list into the error-table
slot for that directed context.  A copier or hook error returns
immediately, leaving later writes undone. -/
def runConversionsGA (env : Env FT GA Alpha Beta) (u : resource GA Alpha Beta) :
    resource GA Alpha Beta × Option String :=
  match env.copyGAtoAlpha u.alpha u.ga with
  | .error e => (u, some e)
  | .ok (alpha1, m1) =>
    match env.CopyHelperGAtoAlpha alpha1 u.ga with
    | .error e => ({ u with alpha := alpha1 }, some e)
    | .ok alpha2 =>
      match env.copyGAtoBeta u.beta u.ga with
      | .error e =>
        ({ u with alpha := alpha2, errors := { u.errors with gaToAlpha := m1 } }, some e)
      | .ok (beta1, m2) =>
        match env.CopyHelperGAtoBeta beta1 u.ga with
        | .error e =>
          ({ u with
              alpha := alpha2
              beta := beta1
              errors := { u.errors with gaToAlpha := m1 } }, some e)
        | .ok beta2 =>
          ({ u with
              alpha := alpha2
              beta := beta2
              errors := { u.errors with gaToAlpha := m1, gaToBeta := m2 } }, none)

/-- Conversion loop of postAccess for srcVer = Alpha (resource.go lines
215-226 and 246-255): destinations ga then beta. -/
def runConversionsAlpha (env : Env FT GA Alpha Beta) (u : resource GA Alpha Beta) :
    resource GA Alpha Beta × Option String :=
  match env.copyAlphaToGA u.ga u.alpha with
  | .error e => (u, some e)
  | .ok (ga1, m1) =>
    match env.CopyHelperAlphaToGA ga1 u.alpha with
    | .error e => ({ u with ga := ga1 }, some e)
    | .ok ga2 =>
      match env.copyAlphaToBeta u.beta u.alpha with
      | .error e =>
        ({ u with ga := ga2, errors := { u.errors with alphaToGA := m1 } }, some e)
      | .ok (beta1, m2) =>
        match env.CopyHelperAlphaToBeta beta1 u.alpha with
        | .error e =>
          ({ u with
              ga := ga2
              beta := beta1
              errors := { u.errors with alphaToGA := m1 } }, some e)
        | .ok beta2 =>
          ({ u with
              ga := ga2
              beta := beta2
              errors := { u.errors with alphaToGA := m1, alphaToBeta := m2 } }, none)

/-- Conversion loop of postAccess for srcVer = Beta (resource.go lines
227-238 and 246-255): destinations ga then alpha. -/
def runConversionsBeta (env : Env FT GA Alpha Beta) (u : resource GA Alpha Beta) :
    resource GA Alpha Beta × Option String :=
  match env.copyBetaToGA u.ga u.beta with
  | .error e => (u, some e)
  | .ok (ga1, m1) =>
    match env.CopyHelperBetaToGA ga1 u.beta with
    | .error e => ({ u with ga := ga1 }, some e)
    | .ok ga2 =>
      match env.copyBetaToAlpha u.alpha u.beta with
      | .error e =>
        ({ u with ga := ga2, errors := { u.errors with betaToGA := m1 } }, some e)
      | .ok (alpha1, m2) =>
        match env.CopyHelperBetaToAlpha alpha1 u.beta with
        | .error e =>
          ({ u with
              ga := ga2
              alpha := alpha1
              errors := { u.errors with betaToGA := m1 } }, some e)
        | .ok alpha2 =>
          ({ u with
              ga := ga2
              alpha := alpha2
              errors := { u.errors with betaToGA := m1, betaToAlpha := m2 } }, none)

/-- Translation of resource.postAccess (resource.go lines 192-258).
When the skip-validation bit is clear, checkPostAccess runs on the source
value first and a failure returns immediately, before any conversion
work; otherwise (and on validation success) the conversion loop runs. -/
def postAccess (env : Env FT GA Alpha Beta) (u : resource GA Alpha Beta)
    (srcVer : Version) (flags : Nat) : resource GA Alpha Beta × Option String :=
  match srcVer with
  | .GA =>
    if flags &&& postAccessSkipValidation = 0 then
      match env.checkPostAccessGA (env.FieldTraits .GA) u.ga with
      | some e => (u, some e)
      | none => runConversionsGA env u
    else runConversionsGA env u
  | .Alpha =>
    if flags &&& postAccessSkipValidation = 0 then
      match env.checkPostAccessAlpha (env.FieldTraits .Alpha) u.alpha with
      | some e => (u, some e)
      | none => runConversionsAlpha env u
    else runConversionsAlpha env u
  | .Beta =>
    if flags &&& postAccessSkipValidation = 0 then
      match env.checkPostAccessBeta (env.FieldTraits .Beta) u.beta with
      | some e => (u, some e)
      | none => runConversionsBeta env u
    else runConversionsBeta env u

/-- Translation of resource.Access (resource.go lines 260-263): apply the
mutator to the GA value, then propagate with validation enabled. -/
def Access (env : Env FT GA Alpha Beta) (u : resource GA Alpha Beta)
    (f : GA → GA) : resource GA Alpha Beta × Option String :=
  postAccess env { u with ga := f u.ga } .GA 0

/-- Translation of resource.AccessAlpha (resource.go lines 265-268). -/
def AccessAlpha (env : Env FT GA Alpha Beta) (u : resource GA Alpha Beta)
    (f : Alpha → Alpha) : resource GA Alpha Beta × Option String :=
  postAccess env { u with alpha := f u.alpha } .Alpha 0

/-- Translation of resource.AccessBeta (resource.go lines 270-273). -/
def AccessBeta (env : Env FT GA Alpha Beta) (u : resource GA Alpha Beta)
    (f : Beta → Beta) : resource GA Alpha Beta × Option String :=
  postAccess env { u with beta := f u.beta } .Beta 0

/-- Tagging loop body of the To*() methods (resource.go lines 295-301):
every record of an inbound context's slot becomes a MissingField carrying
that context. -/
def tagMissing (cc : ConversionContext) (l : List MissingFieldOnCopy) : List MissingField :=
  l.map (fun mf => { Context := cc, Path := mf.Path, Value := mf.Value })

/-- Double loop of the To*() methods over the two inbound contexts
(resource.go lines 294-302). -/
def collectMissing (t : ErrorTable) (ccs : List ConversionContext) : List MissingField :=
  (ccs.map (fun cc => tagMissing cc (t.get cc))).flatten

/-- Translation of resource.ToGA (resource.go lines 292-307). -/
def ToGA (u : resource GA Alpha Beta) : GA × Option ConversionError :=
  let errs : ConversionError :=
    { MissingFields := collectMissing u.errors [.AlphaToGAConversion, .BetaToGAConversion] }
  if errs.hasErr then (u.ga, some errs) else (u.ga, none)

/-- Translation of resource.ToAlpha (resource.go lines 309-324). -/
def ToAlpha (u : resource GA Alpha Beta) : Alpha × Option ConversionError :=
  let errs : ConversionError :=
    { MissingFields := collectMissing u.errors [.GAToAlphaConversion, .BetaToAlphaConversion] }
  if errs.hasErr then (u.alpha, some errs) else (u.alpha, none)

/-- Translation of resource.ToBeta (resource.go lines 326-341). -/
def ToBeta (u : resource GA Alpha Beta) : Beta × Option ConversionError :=
  let errs : ConversionError :=
    { MissingFields := collectMissing u.errors [.GAToBetaConversion, .AlphaToBetaConversion] }
  if errs.hasErr then (u.beta, some errs) else (u.beta, none)

/-- Structured counterpart of the error built by
`fmt.Errorf("indeterminant version (ga=%v, alpha=%v, beta=%v)", ...)`
(resource.go line 288): it carries the three per-version error states. -/
structure IndeterminantErr where
  ga : Option ConversionError
  alpha : Option ConversionError
  beta : Option ConversionError
deriving DecidableEq

/-- Translation of resource.ImpliedVersion (resource.go lines 275-290):
the decision table over the three To*() error states. -/
def ImpliedVersion (u : resource GA Alpha Beta) : Version × Option IndeterminantErr :=
  match (ToGA u).2, (ToAlpha u).2, (ToBeta u).2 with
  | none, none, none => (.GA, none)
  | some _, none, some _ => (.Alpha, none)
  | some _, some _, none => (.Beta, none)
  | g, a, b => (.GA, some { ga := g, alpha := a, beta := b })

/-- Translation of resource.Set (resource.go lines 346-352): copy src
over the GA value with the structural copier (discarding that copy's
missing list, as the Go code does), then propagate with the
skip-validation flag set. -/
def Set (env : Env FT GA Alpha Beta) (u : resource GA Alpha Beta)
    (src : GA) : resource GA Alpha Beta × Option String :=
  match env.copyGAtoGA u.ga src with
  | .error e => (u, some e)
  | .ok (ga1, _m) => postAccess env { u with ga := ga1 } .GA postAccessSkipValidation

/-- Translation of resource.SetAlpha (resource.go lines 354-360). -/
def SetAlpha (env : Env FT GA Alpha Beta) (u : resource GA Alpha Beta)
    (src : Alpha) : resource GA Alpha Beta × Option String :=
  match env.copyAlphaToAlpha u.alpha src with
  | .error e => (u, some e)
  | .ok (alpha1, _m) => postAccess env { u with alpha := alpha1 } .Alpha postAccessSkipValidation

/-- Translation of resource.SetBeta (resource.go lines 362-368). -/
def SetBeta (env : Env FT GA Alpha Beta) (u : resource GA Alpha Beta)
    (src : Beta) : resource GA Alpha Beta × Option String :=
  match env.copyBetaToBeta u.beta src with
  | .error e => (u, some e)
  | .ok (beta1, _m) => postAccess env { u with beta := beta1 } .Beta postAccessSkipValidation

/-- State of a frozenResource (resource.go line 404): the underlying
resource (as mutated by Freeze's fill steps) and the version chosen at
freeze time. -/
structure frozenResource (GA Alpha Beta : Type) where
  x : resource GA Alpha Beta
  ver : Version
deriving DecidableEq

/-- Translation of resource.Freeze (resource.go lines 370-405): compute
ImpliedVersion, fail on its error; otherwise run fillNullAndForceSend
over the field traits of every version other than the implied one and
return the frozen resource.  The fill step is total here (see `Env`), so
its error branch in the Go code is vacuous in this model. -/
def Freeze (env : Env FT GA Alpha Beta) (u : resource GA Alpha Beta) :
    resource GA Alpha Beta × Except IndeterminantErr (frozenResource GA Alpha Beta) :=
  match ImpliedVersion u with
  | (_, some e) => (u, .error e)
  | (ver, none) =>
    let u1 := if ver = .GA then u else
      { u with ga := env.fillNullAndForceSendGA (env.FieldTraits .GA) u.ga }
    let u2 := if ver = .Alpha then u1 else
      { u1 with alpha := env.fillNullAndForceSendAlpha (env.FieldTraits .Alpha) u1.alpha }
    let u3 := if ver = .Beta then u2 else
      { u2 with beta := env.fillNullAndForceSendBeta (env.FieldTraits .Beta) u2.beta }
    (u3, .ok { x := u3, ver := ver })

/-- Modelled from the spec: kind of a struct field in the reflection
model used by NewResource's name seeding; the design note §9 asks only
for "enough type information to render and compare" (reflect.Kind is
collapsed to string versus non-string kinds). -/
inductive FieldKind where
  | strKind
  | intKind
  | boolKind
deriving DecidableEq

/-- Zero value of a field kind (the Go zero value of the struct field). -/
def zeroOf : FieldKind → FieldVal
  | .strKind => .str ""
  | .intKind => .intVal 0
  | .boolKind => .boolVal false

/-- Reflection model of a representation struct type: its named fields
with their kinds. -/
abbrev StructType := List (String × FieldKind)

/-- Reflection model of a representation struct value. -/
abbrev StructVal := List (String × FieldVal)

/-- Zero value of a struct type, as produced for the fresh `obj.ga`,
`obj.alpha`, `obj.beta` inside NewResource. -/
def structZero (t : StructType) : StructVal := t.map (fun p => (p.1, zeroOf p.2))

/-- Reflection write `f.Set(...)` on the named field. -/
def setField (v : StructVal) (nm : String) (val : FieldVal) : StructVal :=
  v.map (fun p => if p.1 = nm then (p.1, val) else p)

/-- Translation of the setName closure of NewResource (resource.go lines
89-98): if the type has no field "Name" or its kind is not string,
return the value unchanged; otherwise look the field up on the value,
panicking (modelled as the error branch) if it is invalid, and set it to
the ResourceID's name. -/
def setName (t : StructType) (nm : String) (v : StructVal) : Except String StructVal :=
  match t.lookup "Name" with
  | some FieldKind.strKind =>
    if (v.lookup "Name").isSome then .ok (setField v "Name" (.str nm))
    else .error "type does not have .Name"
  | _ => .ok v

/-- Translation of NewResource (resource.go lines 75-104) over the
reflection model: build the three zero-valued representations, seed
their Name fields from the ResourceID's name, and return the resource
with an empty error table.  The only failure channel is setName's panic;
no constructor error path exists in the Go code. -/
def NewResource (resourceIDName : String) (tGA tAlpha tBeta : StructType) :
    Except String (resource StructVal StructVal StructVal) :=
  match setName tGA resourceIDName (structZero tGA) with
  | .error e => .error e
  | .ok gaV =>
    match setName tAlpha resourceIDName (structZero tAlpha) with
    | .error e => .error e
    | .ok alphaV =>
      match setName tBeta resourceIDName (structZero tBeta) with
      | .error e => .error e
      | .ok betaV => .ok { ga := gaV, alpha := alphaV, beta := betaV, errors := .empty }

/-- Concrete missing-field record used by the concrete test states. -/
def mfc1 : MissingFieldOnCopy :=
  { Path := [PathSeg.field "FeatureFlag"], Value := FieldVal.boolVal true }

/-- Concrete resource state with an empty error table. -/
def uEmpty : resource Nat Nat Nat :=
  { ga := 0, alpha := 0, beta := 0, errors := ErrorTable.empty }

/-- Concrete state in which only the two contexts out of Alpha carry a
missing field, so GA and Beta err while Alpha is error-free. -/
def uAlphaOnly : resource Nat Nat Nat :=
  { ga := 0, alpha := 0, beta := 0,
    errors := { ErrorTable.empty with alphaToGA := [mfc1], alphaToBeta := [mfc1] } }

/-- Concrete state in which only the two contexts out of Beta carry a
missing field, so GA and Alpha err while Beta is error-free. -/
def uBetaOnly : resource Nat Nat Nat :=
  { ga := 0, alpha := 0, beta := 0,
    errors := { ErrorTable.empty with betaToGA := [mfc1], betaToAlpha := [mfc1] } }

/-- Concrete state in which only the GA-to-Alpha context carries a
missing field: only Alpha errs, a combination outside the three explicit
decision rows of ImpliedVersion. -/
def uAmbig : resource Nat Nat Nat :=
  { ga := 0, alpha := 0, beta := 0,
    errors := { ErrorTable.empty with gaToAlpha := [mfc1] } }

/-- Concrete trivial environment: copies put the source value into the
destination with no missing fields, hooks keep the destination,
validation accepts, and the fill step adds one (so fills are observable
in the frozen state). -/
def envTriv : Env Unit Nat Nat Nat :=
  { FieldTraits := fun _ => ()
    checkPostAccessGA := fun _ _ => none
    checkPostAccessAlpha := fun _ _ => none
    checkPostAccessBeta := fun _ _ => none
    copyGAtoGA := fun _ s => .ok (s, [])
    copyAlphaToAlpha := fun _ s => .ok (s, [])
    copyBetaToBeta := fun _ s => .ok (s, [])
    copyGAtoAlpha := fun _ s => .ok (s, [])
    copyGAtoBeta := fun _ s => .ok (s, [])
    copyAlphaToGA := fun _ s => .ok (s, [])
    copyAlphaToBeta := fun _ s => .ok (s, [])
    copyBetaToGA := fun _ s => .ok (s, [])
    copyBetaToAlpha := fun _ s => .ok (s, [])
    CopyHelperGAtoAlpha := fun d _ => .ok d
    CopyHelperGAtoBeta := fun d _ => .ok d
    CopyHelperAlphaToGA := fun d _ => .ok d
    CopyHelperAlphaToBeta := fun d _ => .ok d
    CopyHelperBetaToGA := fun d _ => .ok d
    CopyHelperBetaToAlpha := fun d _ => .ok d
    fillNullAndForceSendGA := fun _ x => x + 1
    fillNullAndForceSendAlpha := fun _ x => x + 1
    fillNullAndForceSendBeta := fun _ x => x + 1 }

/-- Environment whose validation always rejects. -/
def envCheckFail : Env Unit Nat Nat Nat :=
  { envTriv with
    checkPostAccessGA := fun _ _ => some "invalid"
    checkPostAccessAlpha := fun _ _ => some "invalid"
    checkPostAccessBeta := fun _ _ => some "invalid" }

/-- Environment whose copies report one missing field each. -/
def envMiss : Env Unit Nat Nat Nat :=
  { envTriv with
    copyGAtoGA := fun _ s => .ok (s, [mfc1])
    copyAlphaToAlpha := fun _ s => .ok (s, [mfc1])
    copyBetaToBeta := fun _ s => .ok (s, [mfc1])
    copyGAtoAlpha := fun _ s => .ok (s, [mfc1])
    copyGAtoBeta := fun _ s => .ok (s, [mfc1])
    copyAlphaToGA := fun _ s => .ok (s, [mfc1])
    copyAlphaToBeta := fun _ s => .ok (s, [mfc1])
    copyBetaToGA := fun _ s => .ok (s, [mfc1])
    copyBetaToAlpha := fun _ s => .ok (s, [mfc1]) }

/-- Environment whose first-destination hooks fail. -/
def envHook1Fail : Env Unit Nat Nat Nat :=
  { envTriv with
    CopyHelperGAtoAlpha := fun _ _ => .error "hook1"
    CopyHelperAlphaToGA := fun _ _ => .error "hook1"
    CopyHelperBetaToGA := fun _ _ => .error "hook1" }

/-- Environment whose second-destination hooks fail. -/
def envHook2Fail : Env Unit Nat Nat Nat :=
  { envTriv with
    CopyHelperGAtoBeta := fun _ _ => .error "hook2"
    CopyHelperAlphaToBeta := fun _ _ => .error "hook2"
    CopyHelperBetaToAlpha := fun _ _ => .error "hook2" }

end CloudApi

namespace Graphviz

/-- Comparison of two code-point lists in lexicographic order, the order
sort.Strings uses on the (ASCII) label keys. -/
def lexLeb : List Char → List Char → Bool
  | [], _ => true
  | _ :: _, [] => false
  | a :: as, b :: bs =>
    if a.toNat < b.toNat then true
    else if b.toNat < a.toNat then false
    else lexLeb as bs

/-- Lexicographic order on strings (executable form of sort.Strings'
comparison). -/
def strLeb (a b : String) : Bool := lexLeb a.data b.data

/-- Embedding of sort.Strings (graphviz.go line 125). -/
def sortStrings (l : List String) : List String :=
  List.insertionSort (fun a b => strLeb a b = true) l

/-- Modelled from the spec: the operation classification enum of the
resgraph package (§6: one of create/delete/recreate/update/no-op/
unknown); the resgraph package is not in this snapshot. -/
inductive Operation where
  | OpCreate
  | OpDelete
  | OpRecreate
  | OpUpdate
  | OpNothing
  | OpUnknown
deriving DecidableEq

/-- Modelled from the spec: an outbound reference of a node — the
destination identity and the Path at which the reference occurs (§6),
both already rendered to strings as the renderer consumes them. -/
structure OutRef where
  toId : String
  pathStr : String
deriving DecidableEq

/-- Modelled from the spec: the per-node accessor contract the renderer
consumes (§6): identity string, the local plan's display string and
operation, the node state, and the outbound references with their error.
String-rendered forms stand for the `%v` formatting of the Go code. -/
structure Node where
  id : String
  localPlanStr : String
  op : Operation
  stateStr : String
  getErr : Option String
  outRefs : List OutRef
  outRefErr : Option String
deriving DecidableEq

/-- Translation of the viznode struct (graphviz.go lines 72-80); the Go
`map[string]any` is modelled as an association list of rendered values. -/
structure viznode where
  name : String
  color : String
  shape : String
  style : String
  kv : List (String × String)
deriving DecidableEq

/-- Translation of viznode.indent (graphviz.go lines 82-88). -/
def indent (n : Nat) : String := String.join (List.replicate n "  ")

/-- Translation of viznode.opColor (graphviz.go lines 90-106); the
trailing "mediumpurple1" return is unreachable over the closed enum. -/
def opColor : Operation → String
  | .OpCreate => "chartreuse"
  | .OpDelete => "lightcoral"
  | .OpRecreate => "orange"
  | .OpUpdate => "khaki1"
  | .OpNothing => "beige"
  | .OpUnknown => "red"

/-- Read of the Go map `n.kv[k]` (keys looked up always come from the
map itself). -/
def kvLookup (kv : List (String × String)) (k : String) : String :=
  (kv.lookup k).getD ""

/-- Attribute string built by the loop over color/shape/style
(graphviz.go lines 131-143). -/
def attribsStr (n : viznode) : String :=
  (if n.color ≠ "" then ",color=" ++ n.color else "")
  ++ (if n.shape ≠ "" then ",shape=" ++ n.shape else "")
  ++ (if n.style ≠ "" then ",style=" ++ n.style else "")

/-- Lines list built by viznode.String (graphviz.go lines 108-144): the
header line, the table opening, the title row, the separator row, one
row per key of the kv map in sort.Strings order, the table closing, and
the closing line with the attribute string. -/
def viznodeLines (n : viznode) : List (Nat × String) :=
  [(1, "\"" ++ n.name ++ "\" [label=<"),
   (2, "<table border=\"0\">"),
   (3, "<tr><td colspan=\"2\"><font point-size=\"16\">\\N</font></td></tr>"),
   (3, "<tr><td colspan=\"2\">---</td></tr>")]
  ++ (sortStrings (n.kv.map Prod.fst)).map
      (fun k => (3, "<tr><td>" ++ k ++ "</td><td align=\"left\">" ++ kvLookup n.kv k ++ "</td></tr>"))
  ++ [(2, "</table>"),
      (1, ">" ++ attribsStr n ++ "]")]

/-- Translation of viznode.String (graphviz.go lines 146-150): render
every line with its indentation into the accumulated output. -/
def viznodeString (n : viznode) : String :=
  (viznodeLines n).foldl (fun out l => out ++ (indent l.1 ++ l.2 ++ "\n")) ""

/-- Translation of the vizedge struct (graphviz.go lines 153-156). -/
structure vizedge where
  fromId : String
  toId : String
  field : String
deriving DecidableEq

/-- Translation of vizedge.String (graphviz.go lines 158-160). -/
def vizedgeString (e : vizedge) : String :=
  "  \"" ++ e.fromId ++ "\" -> \"" ++ e.toId ++ "\" [label=<" ++ e.field ++ ">]\n"

/-- Error string accumulation of Do (graphviz.go lines 55-64). -/
def nodeErrStr (n : Node) : String :=
  (match n.getErr with
   | some e => "GetErr()=" ++ e ++ " "
   | none => "")
  ++ (match n.outRefErr with
      | some e => "OutRefs()=" ++ e ++ " "
      | none => "")

/-- Translation of Do (graphviz.go lines 30-70): write the graph header,
then per node write one edge statement per outbound reference followed
by the node's label block (with the color set from the operation and the
errors entry added to the kv map when either error is present), and
close the graph. -/
def Do (g : List Node) : String :=
  let buf := "digraph G \x7b\n"
  let buf := buf ++ "  rankdir=TB\n"
  let buf := g.foldl (fun buf node =>
    let gn : viznode :=
      { name := node.id, color := "", shape := "box", style := "filled",
        kv := [("localPlan", node.localPlanStr), ("state", node.stateStr)] }
    let buf := node.outRefs.foldl
      (fun buf dep =>
        buf ++ vizedgeString { fromId := node.id, toId := dep.toId, field := dep.pathStr }) buf
    let gn := { gn with color := opColor node.op }
    let gn := if node.getErr.isSome || node.outRefErr.isSome
      then { gn with kv := gn.kv ++ [("errors", nodeErrStr node)] }
      else gn
    buf ++ viznodeString gn) buf
  buf ++ "\x7d\n"

/-- Concatenation of a list of strings, used to state the claim-shaped
form of the renderer output. -/
def strConcat : List String → String
  | [] => ""
  | s :: rest => s ++ strConcat rest

/-- Claim-shaped form of the node's kv map: the two display entries plus
the errors entry exactly when one of the two errors is present, with the
color taken from the operation classification. -/
def displayedViznode (n : Node) : viznode :=
  { name := n.id
    color := opColor n.op
    shape := "box"
    style := "filled"
    kv := [("localPlan", n.localPlanStr), ("state", n.stateStr)]
      ++ (if n.getErr.isSome || n.outRefErr.isSome then [("errors", nodeErrStr n)] else []) }

/-- Claim-shaped node block: an HTML-like table with a title row, a
separator row, and one row per displayed key in sorted key order,
followed by the closing bracket carrying the attribute string. -/
def specNodeBlock (n : viznode) : String :=
  indent 1 ++ "\"" ++ n.name ++ "\" [label=<" ++ "\n"
  ++ indent 2 ++ "<table border=\"0\">" ++ "\n"
  ++ indent 3 ++ "<tr><td colspan=\"2\"><font point-size=\"16\">\\N</font></td></tr>" ++ "\n"
  ++ indent 3 ++ "<tr><td colspan=\"2\">---</td></tr>" ++ "\n"
  ++ strConcat ((sortStrings (n.kv.map Prod.fst)).map (fun k =>
      indent 3 ++ "<tr><td>" ++ k ++ "</td><td align=\"left\">" ++ kvLookup n.kv k ++ "</td></tr>" ++ "\n"))
  ++ indent 2 ++ "</table>" ++ "\n"
  ++ indent 1 ++ ">" ++ attribsStr n ++ "]" ++ "\n"

/-- Claim-shaped per-node section: one edge statement per outbound
reference labeled with the reference's field path string, followed by
the node's block. -/
def specNodeSection (n : Node) : String :=
  strConcat (n.outRefs.map (fun dep =>
    vizedgeString { fromId := n.id, toId := dep.toId, field := dep.pathStr }))
  ++ specNodeBlock (displayedViznode n)

/-- Claim-shaped whole-graph output: header, one section per resource,
closing brace. -/
def specDo (g : List Node) : String :=
  "digraph G \x7b\n" ++ "  rankdir=TB\n" ++ strConcat (g.map specNodeSection) ++ "\x7d\n"

end Graphviz

namespace CloudApi

variable {FT GA Alpha Beta : Type}

/-- Unfolding of the To*() double loop for a two-context list. -/
theorem collectMissing_pair (t : ErrorTable) (c1 c2 : ConversionContext) :
    collectMissing t [c1, c2] = tagMissing c1 (t.get c1) ++ tagMissing c2 (t.get c2) := by
  simp [collectMissing]

/-- Closed form of ToGA. -/
theorem ToGA_eq (u : resource GA Alpha Beta) :
    ToGA u = (u.ga,
      if tagMissing .AlphaToGAConversion (u.errors.get .AlphaToGAConversion)
          ++ tagMissing .BetaToGAConversion (u.errors.get .BetaToGAConversion) = [] then none
      else some { MissingFields :=
        tagMissing .AlphaToGAConversion (u.errors.get .AlphaToGAConversion)
          ++ tagMissing .BetaToGAConversion (u.errors.get .BetaToGAConversion) }) := by
  simp only [ToGA, collectMissing_pair]
  generalize tagMissing ConversionContext.AlphaToGAConversion (u.errors.get .AlphaToGAConversion)
      ++ tagMissing ConversionContext.BetaToGAConversion (u.errors.get .BetaToGAConversion) = l
  cases l <;> simp [ConversionError.hasErr]

/-- Closed form of ToAlpha. -/
theorem ToAlpha_eq (u : resource GA Alpha Beta) :
    ToAlpha u = (u.alpha,
      if tagMissing .GAToAlphaConversion (u.errors.get .GAToAlphaConversion)
          ++ tagMissing .BetaToAlphaConversion (u.errors.get .BetaToAlphaConversion) = [] then none
      else some { MissingFields :=
        tagMissing .GAToAlphaConversion (u.errors.get .GAToAlphaConversion)
          ++ tagMissing .BetaToAlphaConversion (u.errors.get .BetaToAlphaConversion) }) := by
  simp only [ToAlpha, collectMissing_pair]
  generalize tagMissing ConversionContext.GAToAlphaConversion (u.errors.get .GAToAlphaConversion)
      ++ tagMissing ConversionContext.BetaToAlphaConversion (u.errors.get .BetaToAlphaConversion) = l
  cases l <;> simp [ConversionError.hasErr]

/-- Closed form of ToBeta. -/
theorem ToBeta_eq (u : resource GA Alpha Beta) :
    ToBeta u = (u.beta,
      if tagMissing .GAToBetaConversion (u.errors.get .GAToBetaConversion)
          ++ tagMissing .AlphaToBetaConversion (u.errors.get .AlphaToBetaConversion) = [] then none
      else some { MissingFields :=
        tagMissing .GAToBetaConversion (u.errors.get .GAToBetaConversion)
          ++ tagMissing .AlphaToBetaConversion (u.errors.get .AlphaToBetaConversion) }) := by
  simp only [ToBeta, collectMissing_pair]
  generalize tagMissing ConversionContext.GAToBetaConversion (u.errors.get .GAToBetaConversion)
      ++ tagMissing ConversionContext.AlphaToBetaConversion (u.errors.get .AlphaToBetaConversion) = l
  cases l <;> simp [ConversionError.hasErr]

/-- Claim C2: each To*() method returns the current value of its version
together with a ConversionError whose MissingFields list is exactly the
union of the missing-field lists recorded for the two conversion
contexts whose destination is that version, each entry tagged with the
context it came from, and the returned error is nil exactly when that
union is empty. -/
theorem to_version_error_union (u : resource GA Alpha Beta) :
    ((ToGA u).1 = u.ga
      ∧ (ToGA u).2 = (if tagMissing .AlphaToGAConversion (u.errors.get .AlphaToGAConversion)
            ++ tagMissing .BetaToGAConversion (u.errors.get .BetaToGAConversion) = [] then none
          else some { MissingFields :=
            tagMissing .AlphaToGAConversion (u.errors.get .AlphaToGAConversion)
              ++ tagMissing .BetaToGAConversion (u.errors.get .BetaToGAConversion) })
      ∧ ((ToGA u).2 = none ↔ tagMissing .AlphaToGAConversion (u.errors.get .AlphaToGAConversion)
            ++ tagMissing .BetaToGAConversion (u.errors.get .BetaToGAConversion) = []))
    ∧ ((ToAlpha u).1 = u.alpha
      ∧ (ToAlpha u).2 = (if tagMissing .GAToAlphaConversion (u.errors.get .GAToAlphaConversion)
            ++ tagMissing .BetaToAlphaConversion (u.errors.get .BetaToAlphaConversion) = [] then none
          else some { MissingFields :=
            tagMissing .GAToAlphaConversion (u.errors.get .GAToAlphaConversion)
              ++ tagMissing .BetaToAlphaConversion (u.errors.get .BetaToAlphaConversion) })
      ∧ ((ToAlpha u).2 = none ↔ tagMissing .GAToAlphaConversion (u.errors.get .GAToAlphaConversion)
            ++ tagMissing .BetaToAlphaConversion (u.errors.get .BetaToAlphaConversion) = []))
    ∧ ((ToBeta u).1 = u.beta
      ∧ (ToBeta u).2 = (if tagMissing .GAToBetaConversion (u.errors.get .GAToBetaConversion)
            ++ tagMissing .AlphaToBetaConversion (u.errors.get .AlphaToBetaConversion) = [] then none
          else some { MissingFields :=
            tagMissing .GAToBetaConversion (u.errors.get .GAToBetaConversion)
              ++ tagMissing .AlphaToBetaConversion (u.errors.get .AlphaToBetaConversion) })
      ∧ ((ToBeta u).2 = none ↔ tagMissing .GAToBetaConversion (u.errors.get .GAToBetaConversion)
            ++ tagMissing .AlphaToBetaConversion (u.errors.get .AlphaToBetaConversion) = [])) := by
  refine ⟨⟨?_, ?_, ?_⟩, ⟨?_, ?_, ?_⟩, ⟨?_, ?_, ?_⟩⟩
  · rw [ToGA_eq]
  · rw [ToGA_eq]
  · rw [ToGA_eq]
    split <;> simp_all
  · rw [ToAlpha_eq]
  · rw [ToAlpha_eq]
  · rw [ToAlpha_eq]
    split <;> simp_all
  · rw [ToBeta_eq]
  · rw [ToBeta_eq]
  · rw [ToBeta_eq]
    split <;> simp_all

/-- Claim C1: the ImpliedVersion decision table — all three error-free
gives Stable (GA); GA erring with Alpha clean and Beta erring gives
Alpha; GA and Alpha erring with Beta clean gives Beta; every other
combination returns an error carrying all three per-version error
states. -/
theorem impliedVersion_decision_table (u : resource GA Alpha Beta) :
    ((ToGA u).2 = none → (ToAlpha u).2 = none → (ToBeta u).2 = none →
      ImpliedVersion u = (Version.GA, none))
    ∧ ((ToGA u).2 ≠ none → (ToAlpha u).2 = none → (ToBeta u).2 ≠ none →
      ImpliedVersion u = (Version.Alpha, none))
    ∧ ((ToGA u).2 ≠ none → (ToAlpha u).2 ≠ none → (ToBeta u).2 = none →
      ImpliedVersion u = (Version.Beta, none))
    ∧ (¬((ToGA u).2 = none ∧ (ToAlpha u).2 = none ∧ (ToBeta u).2 = none) →
      ¬((ToGA u).2 ≠ none ∧ (ToAlpha u).2 = none ∧ (ToBeta u).2 ≠ none) →
      ¬((ToGA u).2 ≠ none ∧ (ToAlpha u).2 ≠ none ∧ (ToBeta u).2 = none) →
      ImpliedVersion u =
        (Version.GA, some { ga := (ToGA u).2, alpha := (ToAlpha u).2, beta := (ToBeta u).2 })) := by
  rcases hg : (ToGA u).2 with _ | eg <;>
    rcases ha : (ToAlpha u).2 with _ | ea <;>
      rcases hb : (ToBeta u).2 with _ | eb <;>
        simp_all [ImpliedVersion]

/-- Witness for C1: the four decision rows at concrete states — the
empty table giving GA, the Alpha-only state giving Alpha, the Beta-only
state giving Beta, and a state erring only toward Alpha falling into the
ambiguous row. -/
theorem impliedVersion_decision_table_witness :
    ImpliedVersion uEmpty = (Version.GA, none)
    ∧ ImpliedVersion uAlphaOnly = (Version.Alpha, none)
    ∧ ImpliedVersion uBetaOnly = (Version.Beta, none)
    ∧ ImpliedVersion uAmbig =
        (Version.GA, some { ga := (ToGA uAmbig).2, alpha := (ToAlpha uAmbig).2, beta := (ToBeta uAmbig).2 }) :=
  ⟨(impliedVersion_decision_table uEmpty).1 rfl rfl rfl,
   (impliedVersion_decision_table uAlphaOnly).2.1 (by decide) (by decide) (by decide),
   (impliedVersion_decision_table uBetaOnly).2.2.1 (by decide) (by decide) (by decide),
   (impliedVersion_decision_table uAmbig).2.2.2 (by decide) (by decide) (by decide)⟩

/-- Claim C9: whenever ImpliedVersion reports an error, the version
value returned alongside it is the Stable (GA) version. -/
theorem impliedVersion_error_returns_ga (u : resource GA Alpha Beta)
    (h : (ImpliedVersion u).2 ≠ none) : (ImpliedVersion u).1 = Version.GA := by
  rcases hg : (ToGA u).2 with _ | eg <;>
    rcases ha : (ToAlpha u).2 with _ | ea <;>
      rcases hb : (ToBeta u).2 with _ | eb <;>
        simp_all [ImpliedVersion]

/-- Witness for C9 at the concrete ambiguous state. -/
theorem impliedVersion_error_returns_ga_witness :
    (ImpliedVersion uAmbig).2 ≠ none ∧ (ImpliedVersion uAmbig).1 = Version.GA :=
  ⟨by decide, impliedVersion_error_returns_ga uAmbig (by decide)⟩

/-- Claim C3: with validation enabled, a post-access validation failure
of the mutated source makes the Access call return that error at once,
with both destination values and all six error-table slots untouched
(the result state differs from the input only in the mutated source). -/
theorem access_validation_failure_no_writes (env : Env FT GA Alpha Beta)
    (u : resource GA Alpha Beta) :
    (∀ (f : GA → GA) (e : String),
      env.checkPostAccessGA (env.FieldTraits .GA) (f u.ga) = some e →
      Access env u f = ({ u with ga := f u.ga }, some e))
    ∧ (∀ (f : Alpha → Alpha) (e : String),
      env.checkPostAccessAlpha (env.FieldTraits .Alpha) (f u.alpha) = some e →
      AccessAlpha env u f = ({ u with alpha := f u.alpha }, some e))
    ∧ (∀ (f : Beta → Beta) (e : String),
      env.checkPostAccessBeta (env.FieldTraits .Beta) (f u.beta) = some e →
      AccessBeta env u f = ({ u with beta := f u.beta }, some e)) := by
  refine ⟨fun f e h => ?_, fun f e h => ?_, fun f e h => ?_⟩
  · simp [Access, postAccess, postAccessSkipValidation, h]
  · simp [AccessAlpha, postAccess, postAccessSkipValidation, h]
  · simp [AccessBeta, postAccess, postAccessSkipValidation, h]

/-- Witness for C3: the always-rejecting validator aborts a GA access on
the concrete empty state with no writes. -/
theorem access_validation_failure_no_writes_witness :
    envCheckFail.checkPostAccessGA (envCheckFail.FieldTraits .GA) ((fun x : Nat => x + 1) uEmpty.ga) = some "invalid"
    ∧ Access envCheckFail uEmpty (fun x => x + 1) =
        ({ uEmpty with ga := (fun x : Nat => x + 1) uEmpty.ga }, some "invalid") :=
  ⟨rfl, (access_validation_failure_no_writes envCheckFail uEmpty).1 (fun x => x + 1) "invalid" rfl⟩

/-- GA-source conversion loop leaves the GA value unchanged. -/
theorem runConversionsGA_preserves_ga (env : Env FT GA Alpha Beta) (u : resource GA Alpha Beta) :
    ((runConversionsGA env u).1).ga = u.ga := by
  unfold runConversionsGA
  repeat' split
  all_goals rfl

/-- Alpha-source conversion loop leaves the Alpha value unchanged. -/
theorem runConversionsAlpha_preserves_alpha (env : Env FT GA Alpha Beta) (u : resource GA Alpha Beta) :
    ((runConversionsAlpha env u).1).alpha = u.alpha := by
  unfold runConversionsAlpha
  repeat' split
  all_goals rfl

/-- Beta-source conversion loop leaves the Beta value unchanged. -/
theorem runConversionsBeta_preserves_beta (env : Env FT GA Alpha Beta) (u : resource GA Alpha Beta) :
    ((runConversionsBeta env u).1).beta = u.beta := by
  unfold runConversionsBeta
  repeat' split
  all_goals rfl

/-- Propagation from GA never writes the GA value. -/
theorem postAccess_GA_preserves_ga (env : Env FT GA Alpha Beta) (u : resource GA Alpha Beta)
    (flags : Nat) : ((postAccess env u .GA flags).1).ga = u.ga := by
  show ((if flags &&& postAccessSkipValidation = 0 then
      match env.checkPostAccessGA (env.FieldTraits .GA) u.ga with
      | some e => (u, some e)
      | none => runConversionsGA env u
    else runConversionsGA env u).1).ga = u.ga
  repeat' split
  all_goals first
    | rfl
    | exact runConversionsGA_preserves_ga env u

/-- Propagation from Alpha never writes the Alpha value. -/
theorem postAccess_Alpha_preserves_alpha (env : Env FT GA Alpha Beta) (u : resource GA Alpha Beta)
    (flags : Nat) : ((postAccess env u .Alpha flags).1).alpha = u.alpha := by
  show ((if flags &&& postAccessSkipValidation = 0 then
      match env.checkPostAccessAlpha (env.FieldTraits .Alpha) u.alpha with
      | some e => (u, some e)
      | none => runConversionsAlpha env u
    else runConversionsAlpha env u).1).alpha = u.alpha
  repeat' split
  all_goals first
    | rfl
    | exact runConversionsAlpha_preserves_alpha env u

/-- Propagation from Beta never writes the Beta value. -/
theorem postAccess_Beta_preserves_beta (env : Env FT GA Alpha Beta) (u : resource GA Alpha Beta)
    (flags : Nat) : ((postAccess env u .Beta flags).1).beta = u.beta := by
  show ((if flags &&& postAccessSkipValidation = 0 then
      match env.checkPostAccessBeta (env.FieldTraits .Beta) u.beta with
      | some e => (u, some e)
      | none => runConversionsBeta env u
    else runConversionsBeta env u).1).beta = u.beta
  repeat' split
  all_goals first
    | rfl
    | exact runConversionsBeta_preserves_beta env u

/-- Claim C10: every Access variant applies the mutator to the source
version first and then propagates, and the resulting state's source
version always holds the mutated value — also when propagation errors —
so no Access rolls the source mutation back. -/
theorem access_source_mutation_retained (env : Env FT GA Alpha Beta) (u : resource GA Alpha Beta) :
    (∀ f : GA → GA,
      Access env u f = postAccess env { u with ga := f u.ga } .GA 0
      ∧ ((Access env u f).1).ga = f u.ga)
    ∧ (∀ f : Alpha → Alpha,
      AccessAlpha env u f = postAccess env { u with alpha := f u.alpha } .Alpha 0
      ∧ ((AccessAlpha env u f).1).alpha = f u.alpha)
    ∧ (∀ f : Beta → Beta,
      AccessBeta env u f = postAccess env { u with beta := f u.beta } .Beta 0
      ∧ ((AccessBeta env u f).1).beta = f u.beta) := by
  refine ⟨fun f => ⟨rfl, ?_⟩, fun f => ⟨rfl, ?_⟩, fun f => ⟨rfl, ?_⟩⟩
  · rw [show Access env u f = postAccess env { u with ga := f u.ga } .GA 0 from rfl,
      postAccess_GA_preserves_ga]
  · rw [show AccessAlpha env u f = postAccess env { u with alpha := f u.alpha } .Alpha 0 from rfl,
      postAccess_Alpha_preserves_alpha]
  · rw [show AccessBeta env u f = postAccess env { u with beta := f u.beta } .Beta 0 from rfl,
      postAccess_Beta_preserves_beta]

/-- Claim C4: a custom bridging hook error during propagation is
returned to the caller and the remaining destination is not propagated
into, while completed work is not rolled back: a destination whose copy
completed keeps its copied value, a destination whose hook also
completed keeps its newly recorded MissingField list in the error table,
and the slot of the destination whose hook failed is left exactly as it
was (the store into the table happens only after the hook).  Stated for
the two possible hook-failure points of each of the three source
versions. -/
theorem postAccess_hook_error_keeps_completed_work (env : Env FT GA Alpha Beta) :
    (∀ (u : resource GA Alpha Beta) (flags : Nat) (a1 : Alpha) (m1 : List MissingFieldOnCopy) (e : String),
      (flags &&& postAccessSkipValidation = 0 →
        env.checkPostAccessGA (env.FieldTraits .GA) u.ga = none) →
      env.copyGAtoAlpha u.alpha u.ga = .ok (a1, m1) →
      env.CopyHelperGAtoAlpha a1 u.ga = .error e →
      postAccess env u .GA flags = ({ u with alpha := a1 }, some e))
    ∧ (∀ (u : resource GA Alpha Beta) (flags : Nat) (a1 : Alpha) (m1 : List MissingFieldOnCopy)
        (a2 : Alpha) (b1 : Beta) (m2 : List MissingFieldOnCopy) (e : String),
      (flags &&& postAccessSkipValidation = 0 →
        env.checkPostAccessGA (env.FieldTraits .GA) u.ga = none) →
      env.copyGAtoAlpha u.alpha u.ga = .ok (a1, m1) →
      env.CopyHelperGAtoAlpha a1 u.ga = .ok a2 →
      env.copyGAtoBeta u.beta u.ga = .ok (b1, m2) →
      env.CopyHelperGAtoBeta b1 u.ga = .error e →
      postAccess env u .GA flags =
        ({ u with
            alpha := a2
            beta := b1
            errors := { u.errors with gaToAlpha := m1 } }, some e))
    ∧ (∀ (u : resource GA Alpha Beta) (flags : Nat) (g1 : GA) (m1 : List MissingFieldOnCopy) (e : String),
      (flags &&& postAccessSkipValidation = 0 →
        env.checkPostAccessAlpha (env.FieldTraits .Alpha) u.alpha = none) →
      env.copyAlphaToGA u.ga u.alpha = .ok (g1, m1) →
      env.CopyHelperAlphaToGA g1 u.alpha = .error e →
      postAccess env u .Alpha flags = ({ u with ga := g1 }, some e))
    ∧ (∀ (u : resource GA Alpha Beta) (flags : Nat) (g1 : GA) (m1 : List MissingFieldOnCopy)
        (g2 : GA) (b1 : Beta) (m2 : List MissingFieldOnCopy) (e : String),
      (flags &&& postAccessSkipValidation = 0 →
        env.checkPostAccessAlpha (env.FieldTraits .Alpha) u.alpha = none) →
      env.copyAlphaToGA u.ga u.alpha = .ok (g1, m1) →
      env.CopyHelperAlphaToGA g1 u.alpha = .ok g2 →
      env.copyAlphaToBeta u.beta u.alpha = .ok (b1, m2) →
      env.CopyHelperAlphaToBeta b1 u.alpha = .error e →
      postAccess env u .Alpha flags =
        ({ u with
            ga := g2
            beta := b1
            errors := { u.errors with alphaToGA := m1 } }, some e))
    ∧ (∀ (u : resource GA Alpha Beta) (flags : Nat) (g1 : GA) (m1 : List MissingFieldOnCopy) (e : String),
      (flags &&& postAccessSkipValidation = 0 →
        env.checkPostAccessBeta (env.FieldTraits .Beta) u.beta = none) →
      env.copyBetaToGA u.ga u.beta = .ok (g1, m1) →
      env.CopyHelperBetaToGA g1 u.beta = .error e →
      postAccess env u .Beta flags = ({ u with ga := g1 }, some e))
    ∧ (∀ (u : resource GA Alpha Beta) (flags : Nat) (g1 : GA) (m1 : List MissingFieldOnCopy)
        (g2 : GA) (a1 : Alpha) (m2 : List MissingFieldOnCopy) (e : String),
      (flags &&& postAccessSkipValidation = 0 →
        env.checkPostAccessBeta (env.FieldTraits .Beta) u.beta = none) →
      env.copyBetaToGA u.ga u.beta = .ok (g1, m1) →
      env.CopyHelperBetaToGA g1 u.beta = .ok g2 →
      env.copyBetaToAlpha u.alpha u.beta = .ok (a1, m2) →
      env.CopyHelperBetaToAlpha a1 u.beta = .error e →
      postAccess env u .Beta flags =
        ({ u with
            ga := g2
            alpha := a1
            errors := { u.errors with betaToGA := m1 } }, some e)) := by
  refine ⟨fun u flags a1 m1 e hval h1 h2 => ?_,
          fun u flags a1 m1 a2 b1 m2 e hval h1 h2 h3 h4 => ?_,
          fun u flags g1 m1 e hval h1 h2 => ?_,
          fun u flags g1 m1 g2 b1 m2 e hval h1 h2 h3 h4 => ?_,
          fun u flags g1 m1 e hval h1 h2 => ?_,
          fun u flags g1 m1 g2 a1 m2 e hval h1 h2 h3 h4 => ?_⟩
  · by_cases hf : flags &&& postAccessSkipValidation = 0
    · simp [postAccess, hf, hval hf, runConversionsGA, h1, h2]
    · simp [postAccess, hf, runConversionsGA, h1, h2]
  · by_cases hf : flags &&& postAccessSkipValidation = 0
    · simp [postAccess, hf, hval hf, runConversionsGA, h1, h2, h3, h4]
    · simp [postAccess, hf, runConversionsGA, h1, h2, h3, h4]
  · by_cases hf : flags &&& postAccessSkipValidation = 0
    · simp [postAccess, hf, hval hf, runConversionsAlpha, h1, h2]
    · simp [postAccess, hf, runConversionsAlpha, h1, h2]
  · by_cases hf : flags &&& postAccessSkipValidation = 0
    · simp [postAccess, hf, hval hf, runConversionsAlpha, h1, h2, h3, h4]
    · simp [postAccess, hf, runConversionsAlpha, h1, h2, h3, h4]
  · by_cases hf : flags &&& postAccessSkipValidation = 0
    · simp [postAccess, hf, hval hf, runConversionsBeta, h1, h2]
    · simp [postAccess, hf, runConversionsBeta, h1, h2]
  · by_cases hf : flags &&& postAccessSkipValidation = 0
    · simp [postAccess, hf, hval hf, runConversionsBeta, h1, h2, h3, h4]
    · simp [postAccess, hf, runConversionsBeta, h1, h2, h3, h4]

/-- Witness for C4: all six hook-failure points exercised on concrete
environments and the empty state. -/
theorem postAccess_hook_error_keeps_completed_work_witness :
    postAccess envHook1Fail uEmpty .GA 0 = ({ uEmpty with alpha := 0 }, some "hook1")
    ∧ postAccess envHook2Fail uEmpty .GA 0 =
        ({ uEmpty with
            alpha := 0
            beta := 0
            errors := { uEmpty.errors with gaToAlpha := [] } }, some "hook2")
    ∧ postAccess envHook1Fail uEmpty .Alpha 0 = ({ uEmpty with ga := 0 }, some "hook1")
    ∧ postAccess envHook2Fail uEmpty .Alpha 0 =
        ({ uEmpty with
            ga := 0
            beta := 0
            errors := { uEmpty.errors with alphaToGA := [] } }, some "hook2")
    ∧ postAccess envHook1Fail uEmpty .Beta 0 = ({ uEmpty with ga := 0 }, some "hook1")
    ∧ postAccess envHook2Fail uEmpty .Beta 0 =
        ({ uEmpty with
            ga := 0
            alpha := 0
            errors := { uEmpty.errors with betaToGA := [] } }, some "hook2") :=
  ⟨(postAccess_hook_error_keeps_completed_work envHook1Fail).1 uEmpty 0 0 [] "hook1"
      (fun _ => rfl) rfl rfl,
   (postAccess_hook_error_keeps_completed_work envHook2Fail).2.1 uEmpty 0 0 [] 0 0 [] "hook2"
      (fun _ => rfl) rfl rfl rfl rfl,
   (postAccess_hook_error_keeps_completed_work envHook1Fail).2.2.1 uEmpty 0 0 [] "hook1"
      (fun _ => rfl) rfl rfl,
   (postAccess_hook_error_keeps_completed_work envHook2Fail).2.2.2.1 uEmpty 0 0 [] 0 0 [] "hook2"
      (fun _ => rfl) rfl rfl rfl rfl,
   (postAccess_hook_error_keeps_completed_work envHook1Fail).2.2.2.2.1 uEmpty 0 0 [] "hook1"
      (fun _ => rfl) rfl rfl,
   (postAccess_hook_error_keeps_completed_work envHook2Fail).2.2.2.2.2 uEmpty 0 0 [] 0 0 [] "hook2"
      (fun _ => rfl) rfl rfl rfl rfl⟩

/-- Claim C5: on ImpliedVersion success, Freeze applies the
fill-absence-metadata step over the declared field traits of exactly the
two non-canonical versions, leaves the canonical version's
representation untouched, and returns a FrozenResource referencing the
canonical version; Freeze fails exactly when ImpliedVersion fails. -/
theorem freeze_fills_noncanonical (env : Env FT GA Alpha Beta) (u : resource GA Alpha Beta) :
    (∀ ver : Version, ImpliedVersion u = (ver, none) →
      Freeze env u =
        (let w : resource GA Alpha Beta :=
          { ga := if ver = .GA then u.ga
              else env.fillNullAndForceSendGA (env.FieldTraits .GA) u.ga
            alpha := if ver = .Alpha then u.alpha
              else env.fillNullAndForceSendAlpha (env.FieldTraits .Alpha) u.alpha
            beta := if ver = .Beta then u.beta
              else env.fillNullAndForceSendBeta (env.FieldTraits .Beta) u.beta
            errors := u.errors };
         (w, Except.ok { x := w, ver := ver })))
    ∧ (∀ e : IndeterminantErr, (ImpliedVersion u).2 = some e →
      Freeze env u = (u, Except.error e))
    ∧ ((∃ fr, (Freeze env u).2 = Except.ok fr) ↔ (ImpliedVersion u).2 = none) := by
  refine ⟨fun ver h => ?_, fun e h => ?_, ?_⟩
  · cases ver <;> simp [Freeze, h]
  · rcases hIV : ImpliedVersion u with ⟨v, s⟩
    rw [hIV] at h
    simp only at h
    subst h
    simp [Freeze, hIV]
  · rcases hIV : ImpliedVersion u with ⟨v, _ | e⟩ <;> simp [Freeze, hIV]

/-- Witness for C5: freezing the concrete clean state fills the two
non-GA versions (the fill adds one) and leaves GA untouched; freezing
the concrete ambiguous state fails with the ImpliedVersion error. -/
theorem freeze_fills_noncanonical_witness :
    ImpliedVersion uEmpty = (Version.GA, none)
    ∧ Freeze envTriv uEmpty =
        ({ ga := 0, alpha := 1, beta := 1, errors := ErrorTable.empty },
         Except.ok
           { x := { ga := 0, alpha := 1, beta := 1, errors := ErrorTable.empty },
             ver := Version.GA })
    ∧ Freeze envTriv uAmbig =
        (uAmbig, Except.error
          { ga := none
            alpha := some { MissingFields :=
              [{ Context := ConversionContext.GAToAlphaConversion,
                 Path := [PathSeg.field "FeatureFlag"],
                 Value := FieldVal.boolVal true }] }
            beta := none }) :=
  ⟨rfl,
   by
    have h := (freeze_fills_noncanonical envTriv uEmpty).1 Version.GA rfl
    simpa using h,
   by
    have h := (freeze_fills_noncanonical envTriv uAmbig).2.1
      { ga := none
        alpha := some { MissingFields :=
          [{ Context := ConversionContext.GAToAlphaConversion,
             Path := [PathSeg.field "FeatureFlag"],
             Value := FieldVal.boolVal true }] }
        beta := none } (by decide)
    exact h⟩

/-- Claim C6: every Set variant replaces the named version's value with
the structural copier's output for src (not with src by direct
assignment), then propagates with the skip-validation flag set; the
propagation is insensitive to the validators (they are never consulted),
and on a fully successful propagation the copier missing lists are still
accumulated into the two error-table slots of the source version. -/
theorem set_replaces_via_copier_skips_validation (env : Env FT GA Alpha Beta) :
    (∀ (u : resource GA Alpha Beta) (src : GA) (ga1 : GA) (m : List MissingFieldOnCopy),
      env.copyGAtoGA u.ga src = .ok (ga1, m) →
      Set env u src = postAccess env { u with ga := ga1 } .GA postAccessSkipValidation)
    ∧ (∀ (u : resource GA Alpha Beta) (src : Alpha) (alpha1 : Alpha) (m : List MissingFieldOnCopy),
      env.copyAlphaToAlpha u.alpha src = .ok (alpha1, m) →
      SetAlpha env u src = postAccess env { u with alpha := alpha1 } .Alpha postAccessSkipValidation)
    ∧ (∀ (u : resource GA Alpha Beta) (src : Beta) (beta1 : Beta) (m : List MissingFieldOnCopy),
      env.copyBetaToBeta u.beta src = .ok (beta1, m) →
      SetBeta env u src = postAccess env { u with beta := beta1 } .Beta postAccessSkipValidation)
    ∧ (∀ (cga : FT → GA → Option String) (calpha : FT → Alpha → Option String)
        (cbeta : FT → Beta → Option String) (u : resource GA Alpha Beta)
        (srcGA : GA) (srcA : Alpha) (srcB : Beta),
      Set { env with
          checkPostAccessGA := cga
          checkPostAccessAlpha := calpha
          checkPostAccessBeta := cbeta } u srcGA = Set env u srcGA
      ∧ SetAlpha { env with
          checkPostAccessGA := cga
          checkPostAccessAlpha := calpha
          checkPostAccessBeta := cbeta } u srcA = SetAlpha env u srcA
      ∧ SetBeta { env with
          checkPostAccessGA := cga
          checkPostAccessAlpha := calpha
          checkPostAccessBeta := cbeta } u srcB = SetBeta env u srcB)
    ∧ (∀ (u : resource GA Alpha Beta) (src : GA) (ga1 : GA) (m0 : List MissingFieldOnCopy)
        (a1 : Alpha) (m1 : List MissingFieldOnCopy) (a2 : Alpha)
        (b1 : Beta) (m2 : List MissingFieldOnCopy) (b2 : Beta),
      env.copyGAtoGA u.ga src = .ok (ga1, m0) →
      env.copyGAtoAlpha u.alpha ga1 = .ok (a1, m1) →
      env.CopyHelperGAtoAlpha a1 ga1 = .ok a2 →
      env.copyGAtoBeta u.beta ga1 = .ok (b1, m2) →
      env.CopyHelperGAtoBeta b1 ga1 = .ok b2 →
      Set env u src =
        ({ ga := ga1, alpha := a2, beta := b2,
           errors := { u.errors with gaToAlpha := m1, gaToBeta := m2 } }, none))
    ∧ (∀ (u : resource GA Alpha Beta) (src : Alpha) (alpha1 : Alpha) (m0 : List MissingFieldOnCopy)
        (g1 : GA) (m1 : List MissingFieldOnCopy) (g2 : GA)
        (b1 : Beta) (m2 : List MissingFieldOnCopy) (b2 : Beta),
      env.copyAlphaToAlpha u.alpha src = .ok (alpha1, m0) →
      env.copyAlphaToGA u.ga alpha1 = .ok (g1, m1) →
      env.CopyHelperAlphaToGA g1 alpha1 = .ok g2 →
      env.copyAlphaToBeta u.beta alpha1 = .ok (b1, m2) →
      env.CopyHelperAlphaToBeta b1 alpha1 = .ok b2 →
      SetAlpha env u src =
        ({ ga := g2, alpha := alpha1, beta := b2,
           errors := { u.errors with alphaToGA := m1, alphaToBeta := m2 } }, none))
    ∧ (∀ (u : resource GA Alpha Beta) (src : Beta) (beta1 : Beta) (m0 : List MissingFieldOnCopy)
        (g1 : GA) (m1 : List MissingFieldOnCopy) (g2 : GA)
        (a1 : Alpha) (m2 : List MissingFieldOnCopy) (a2 : Alpha),
      env.copyBetaToBeta u.beta src = .ok (beta1, m0) →
      env.copyBetaToGA u.ga beta1 = .ok (g1, m1) →
      env.CopyHelperBetaToGA g1 beta1 = .ok g2 →
      env.copyBetaToAlpha u.alpha beta1 = .ok (a1, m2) →
      env.CopyHelperBetaToAlpha a1 beta1 = .ok a2 →
      SetBeta env u src =
        ({ ga := g2, alpha := a2, beta := beta1,
           errors := { u.errors with betaToGA := m1, betaToAlpha := m2 } }, none)) := by
  refine ⟨fun u src ga1 m h => ?_,
          fun u src alpha1 m h => ?_,
          fun u src beta1 m h => ?_,
          fun cga calpha cbeta u srcGA srcA srcB => ⟨rfl, rfl, rfl⟩,
          fun u src ga1 m0 a1 m1 a2 b1 m2 b2 h0 h1 h2 h3 h4 => ?_,
          fun u src alpha1 m0 g1 m1 g2 b1 m2 b2 h0 h1 h2 h3 h4 => ?_,
          fun u src beta1 m0 g1 m1 g2 a1 m2 a2 h0 h1 h2 h3 h4 => ?_⟩
  · simp [Set, h]
  · simp [SetAlpha, h]
  · simp [SetBeta, h]
  · simp [Set, h0, postAccess, postAccessSkipValidation, runConversionsGA, h1, h2, h3, h4]
  · simp [SetAlpha, h0, postAccess, postAccessSkipValidation, runConversionsAlpha, h1, h2, h3, h4]
  · simp [SetBeta, h0, postAccess, postAccessSkipValidation, runConversionsBeta, h1, h2, h3, h4]

/-- Witness for C6: a concrete Set on the missing-field environment
replaces GA with the copier output, ignores even an always-rejecting
validator, and records the two copier missing lists in the table. -/
theorem set_replaces_via_copier_skips_validation_witness :
    Set envMiss uEmpty 5 =
      ({ ga := 5, alpha := 5, beta := 5,
         errors := { uEmpty.errors with gaToAlpha := [mfc1], gaToBeta := [mfc1] } }, none)
    ∧ Set { envMiss with
          checkPostAccessGA := fun _ _ => some "invalid"
          checkPostAccessAlpha := fun _ _ => some "invalid"
          checkPostAccessBeta := fun _ _ => some "invalid" } uEmpty 5 = Set envMiss uEmpty 5 :=
  ⟨(set_replaces_via_copier_skips_validation envMiss).2.2.2.2.1 uEmpty 5 5 [mfc1] 5 [mfc1] 5 5 [mfc1] 5
      rfl rfl rfl rfl rfl,
   ((set_replaces_via_copier_skips_validation envMiss).2.2.2.1
      (fun _ _ => some "invalid") (fun _ _ => some "invalid") (fun _ _ => some "invalid")
      uEmpty 5 0 0).1⟩

/-- Behaviour of setName on a type whose Name field is not string-kinded:
the assignment is silently skipped. -/
theorem setName_skips_non_string (t : StructType) (nm : String) (v : StructVal)
    (k : FieldKind) (hk : t.lookup "Name" = some k) (hne : k ≠ FieldKind.strKind) :
    setName t nm v = .ok v := by
  unfold setName
  rw [hk]
  cases k
  · exact absurd rfl hne
  · rfl
  · rfl

/-- Counterexample to claim C7: a representation type declaring Name
with a non-string type does not make construction fail — NewResource
completes normally, returning a resource whose wrongly-typed Name field
still holds its zero value (the identity's name "foo" was not assigned
and no constructor error or abort occurred). -/
theorem newResource_wrong_typed_name_counterexample :
    NewResource "foo" [("Name", FieldKind.intKind)] [] [] =
      Except.ok { ga := [("Name", FieldVal.intVal 0)], alpha := [], beta := [],
                  errors := ErrorTable.empty } := by
  rfl

/-- Claim C7 (amended): for every representation type whose declared
Name field exists but is not of string kind, NewResource silently skips
seeding that representation's name and completes successfully with the
representation left at its zero value; no constructor error and no
runtime abort occurs (the panic branch is reachable only when a type
declares Name and its value lacks the field, which a zero value never
does). -/
theorem newResource_wrong_typed_name_skips_silently
    (nm : String) (tGA tAlpha tBeta : StructType)
    (kGA kAlpha kBeta : FieldKind)
    (hga : tGA.lookup "Name" = some kGA) (hga2 : kGA ≠ FieldKind.strKind)
    (hal : tAlpha.lookup "Name" = some kAlpha) (hal2 : kAlpha ≠ FieldKind.strKind)
    (hbe : tBeta.lookup "Name" = some kBeta) (hbe2 : kBeta ≠ FieldKind.strKind) :
    NewResource nm tGA tAlpha tBeta =
      Except.ok { ga := structZero tGA, alpha := structZero tAlpha,
                  beta := structZero tBeta, errors := ErrorTable.empty } := by
  unfold NewResource
  rw [setName_skips_non_string tGA nm _ kGA hga hga2,
    setName_skips_non_string tAlpha nm _ kAlpha hal hal2,
    setName_skips_non_string tBeta nm _ kBeta hbe hbe2]

/-- Witness for the amended C7 at concrete wrongly-typed Name fields. -/
theorem newResource_wrong_typed_name_skips_silently_witness :
    NewResource "foo" [("Name", FieldKind.intKind)] [("Name", FieldKind.boolKind)]
        [("Name", FieldKind.intKind)] =
      Except.ok { ga := structZero [("Name", FieldKind.intKind)],
                  alpha := structZero [("Name", FieldKind.boolKind)],
                  beta := structZero [("Name", FieldKind.intKind)],
                  errors := ErrorTable.empty } :=
  newResource_wrong_typed_name_skips_silently "foo"
    [("Name", FieldKind.intKind)] [("Name", FieldKind.boolKind)] [("Name", FieldKind.intKind)]
    FieldKind.intKind FieldKind.boolKind FieldKind.intKind
    rfl (by decide) rfl (by decide) rfl (by decide)

end CloudApi

namespace Graphviz

/-- Concatenation distributes over list append. -/
theorem strConcat_append (l1 l2 : List String) :
    strConcat (l1 ++ l2) = strConcat l1 ++ strConcat l2 := by
  induction l1 with
  | nil => simp [strConcat]
  | cons s rest ih => simp [strConcat, ih, String.append_assoc]

/-- A left fold that appends a rendering of every element equals the
initial string followed by the concatenation of the renderings. -/
theorem foldl_append_strConcat {α : Type} (f : α → String) (l : List α) :
    ∀ init : String, l.foldl (fun out x => out ++ f x) init = init ++ strConcat (l.map f) := by
  induction l with
  | nil => intro init; simp [strConcat]
  | cons x xs ih => intro init; simp [strConcat, ih, String.append_assoc]

/-- A left fold whose body appends a per-element string equals the
initial string followed by the concatenation. -/
theorem foldl_body_append {α : Type} (f : String → α → String) (s : α → String)
    (hf : ∀ b x, f b x = b ++ s x) :
    ∀ (l : List α) (init : String), l.foldl f init = init ++ strConcat (l.map s) := by
  intro l
  induction l with
  | nil => intro init; simp [strConcat]
  | cons x xs ih => intro init; simp [strConcat, ih, hf, String.append_assoc]

/-- Rendering of the lines list equals the claim-shaped node block. -/
theorem viznodeString_eq_specNodeBlock (n : viznode) :
    viznodeString n = specNodeBlock n := by
  unfold viznodeString viznodeLines specNodeBlock
  rw [foldl_append_strConcat (fun l : Nat × String => indent l.1 ++ l.2 ++ "\n")]
  simp [strConcat_append, strConcat, List.map_map, String.append_assoc, Function.comp_def]

/-- Body of the Do loop appends the claim-shaped per-node section. -/
theorem do_body_eq_section (b : String) (node : Node) :
    (let gn : viznode :=
      { name := node.id, color := "", shape := "box", style := "filled",
        kv := [("localPlan", node.localPlanStr), ("state", node.stateStr)] }
     let buf := node.outRefs.foldl
       (fun buf dep =>
         buf ++ vizedgeString { fromId := node.id, toId := dep.toId, field := dep.pathStr }) b
     let gn := { gn with color := opColor node.op }
     let gn := if node.getErr.isSome || node.outRefErr.isSome
       then { gn with kv := gn.kv ++ [("errors", nodeErrStr node)] }
       else gn
     buf ++ viznodeString gn) = b ++ specNodeSection node := by
  simp only []
  rw [foldl_append_strConcat (fun dep : OutRef =>
    vizedgeString { fromId := node.id, toId := dep.toId, field := dep.pathStr })]
  rw [viznodeString_eq_specNodeBlock]
  unfold specNodeSection
  by_cases hc : (node.getErr.isSome || node.outRefErr.isSome) = true <;>
    simp [hc, displayedViznode, String.append_assoc]

/-- Equality of the rendered output with its claim-shaped form. -/
theorem Do_eq_specDo (g : List Node) : Do g = specDo g := by
  simp only [Do]
  rw [foldl_body_append _ specNodeSection (fun b node => do_body_eq_section b node)]
  simp [specDo, String.append_assoc]

/-- Claim C8: the rendered graph is the header, then per resource one
edge statement per outbound reference labeled with the reference's field
path string followed by one node block — an HTML-like table with a title
row, a separator row, and one row per displayed key — then the closing
brace; the row keys are the displayed keys sorted lexicographically, and
the node's color attribute is the one assigned to its operation
classification. -/
theorem graphviz_do_output_shape (g : List Node) :
    Do g = specDo g
    ∧ (∀ n : Node,
        specNodeSection n =
          strConcat (n.outRefs.map (fun dep =>
            vizedgeString { fromId := n.id, toId := dep.toId, field := dep.pathStr }))
          ++ specNodeBlock (displayedViznode n)
        ∧ (displayedViznode n).color = opColor n.op
        ∧ List.Sorted (fun a b => strLeb a b = true)
            (sortStrings ((displayedViznode n).kv.map Prod.fst))
        ∧ List.Perm (sortStrings ((displayedViznode n).kv.map Prod.fst))
            ((displayedViznode n).kv.map Prod.fst)) := by
  refine ⟨Do_eq_specDo g, fun n => ⟨rfl, rfl, ?_, ?_⟩⟩
  · by_cases hc : (n.getErr.isSome || n.outRefErr.isSome) = true <;>
      simp only [displayedViznode, hc, if_pos, if_neg, Bool.false_eq_true,
        not_false_eq_true, List.append_nil, List.map_append, List.map_cons, List.map_nil] <;>
      decide
  · by_cases hc : (n.getErr.isSome || n.outRefErr.isSome) = true <;>
      simp only [displayedViznode, hc, if_pos, if_neg, Bool.false_eq_true,
        not_false_eq_true, List.append_nil, List.map_append, List.map_cons, List.map_nil] <;>
      decide

end Graphviz
